import Mathlib

/-!
Verification development for the payroll reconciliation pipeline
(Confronto DP x Contábil).  The Python source (src/app.py and
src/novosArquivos/app_resumos.py) is shallowly embedded: decimal
amounts are modelled as rationals (the code manipulates Brazilian
decimal strings and compares with a fixed 0.01 tolerance), pandas
DataFrames become lists of records, dicts become association lists
with insertion-order/overwrite semantics, and fallible float parsing
returns an Option.  Python string primitives (strip, replace of a
single character, split, lower, substring containment) are embedded
as executable character-list functions.
-/

attribute [local semireducible] Rat.add Rat.sub Rat.mul Rat.inv Rat.ofScientific

namespace DP

/-- Python str.strip on ASCII whitespace. -/
def trimCL (cs : List Char) : List Char :=
  ((cs.dropWhile Char.isWhitespace).reverse.dropWhile Char.isWhitespace).reverse

/-- Python str.strip. -/
def pyStrip (s : String) : String := String.mk (trimCL s.data)

/-- Python s.replace(c, "") for a single-character pattern. -/
def removeChar (c : Char) (s : String) : String :=
  String.mk (s.data.filter (fun x => x ≠ c))

/-- Python s.replace(a, b) for single-character pattern and replacement. -/
def swapChar (a b : Char) (s : String) : String :=
  String.mk (s.data.map (fun c => if c = a then b else c))

/-- Decides whether the first list is a prefix of the second. -/
def isPrefixCL : List Char → List Char → Bool
  | [], _ => true
  | _ :: _, [] => false
  | a :: as, b :: bs => a = b && isPrefixCL as bs

/-- Substring occurrence on character lists (Python `needle in hay`). -/
def subInCL : List Char → List Char → Bool
  | n, [] => n.isEmpty
  | n, h :: hs => isPrefixCL n (h :: hs) || subInCL n hs

/-- Python `needle in hay` on strings. -/
def substrIn (needle hay : String) : Bool := subInCL needle.data hay.data

/-- Python split on a single separator character, keeping empty fields
(str.split(sep)). -/
def splitCharCL (c : Char) (cs : List Char) : List (List Char) :=
  cs.foldr (fun ch acc =>
    match acc with
    | [] => if ch = c then [[], []] else [[ch]]
    | g :: gs => if ch = c then [] :: g :: gs else (ch :: g) :: gs) [[]]

/-- Python str.split(sep) on strings. -/
def pySplitOn (c : Char) (s : String) : List String :=
  (splitCharCL c s.data).map String.mk

/-- Split on a character predicate, keeping empty fields. -/
def splitPredCL (p : Char → Bool) (cs : List Char) : List (List Char) :=
  cs.foldr (fun ch acc =>
    match acc with
    | [] => if p ch then [[], []] else [[ch]]
    | g :: gs => if p ch then [] :: g :: gs else (ch :: g) :: gs) [[]]

/-- Python str.split() with no argument: split on whitespace runs and
drop empty tokens. -/
def pySplitWs (s : String) : List String :=
  ((splitPredCL Char.isWhitespace s.data).filter (fun g => g ≠ [])).map String.mk

/-- Python str.lower (ASCII letters; accented letters relevant to this
code base have been removed by the substitution table before lowering). -/
def pyLower (s : String) : String := String.mk (s.data.map Char.toLower)

/-- Keep only decimal digit characters (re.sub of non-digits). -/
def digitsOf (s : String) : String := String.mk (s.data.filter Char.isDigit)

/-- The accented-character substitution table of normalize_text. -/
def charSub (c : Char) : Char :=
  match c with
  | 'ç' => 'c' | 'Ç' => 'C'
  | 'á' => 'a' | 'à' => 'a' | 'ä' => 'a' | 'â' => 'a' | 'ã' => 'a'
  | 'Á' => 'A' | 'À' => 'A' | 'Ä' => 'A' | 'Â' => 'A' | 'Ã' => 'A'
  | 'é' => 'e' | 'ê' => 'e' | 'É' => 'E' | 'Ê' => 'E'
  | 'í' => 'i' | 'î' => 'i' | 'Í' => 'I' | 'Î' => 'I'
  | 'ó' => 'o' | 'ô' => 'o' | 'ö' => 'o' | 'õ' => 'o'
  | 'Ó' => 'O' | 'Ô' => 'O' | 'Ö' => 'O' | 'Õ' => 'O'
  | 'ú' => 'u' | 'ü' => 'u' | 'Ú' => 'U' | 'Ü' => 'U'
  | _ => c

/-- normalize_text from app.py: substitute accented characters (the
sequential whole-string replaces of single characters are equivalent
to one character-wise map), then lowercase and strip. -/
def normalize_text (s : String) : String :=
  pyStrip (pyLower (String.mk (s.data.map charSub)))

/-- Python str.title restricted to ASCII cased letters: the first
letter of every contiguous alphabetic run is uppercased, the rest
lowercased. -/
def pyTitle (s : String) : String :=
  String.mk (s.data.foldl
    (fun (acc : List Char × Bool) c =>
      if c.isAlpha then (acc.1 ++ [if acc.2 then c.toLower else c.toUpper], true)
      else (acc.1 ++ [c], false)) ([], false)).1

/-- The alias dictionary of canonical_categoria. -/
def categoriaAlias (base : String) : Option String :=
  match base with
  | "folha socios" => some "Folha Sócios"
  | "folha autonomos" => some "Folha Autonomos"
  | "13 primeira parcela" => some "13º Primeira Parcela"
  | "13 segunda parcela" => some "13º Segunda Parcela"
  | "13 adiantamento" => some "13º Adiantamento"
  | "ferias" => some "Férias"
  | "adiantamento" => some "Adiantamento"
  | "pro labore" => some "Pró-Labore"
  | "decimo terceiro" => some "13º"
  | "13" => some "13º"
  | _ => none

/-- Final fallback of canonical_categoria: strip, title-case, and
replace an empty result by "Sem Categoria". -/
def categoriaFallback (raw : String) : String :=
  let t := pyTitle (pyStrip raw)
  if t = "" then "Sem Categoria" else t

/-- canonical_categoria from app.py (rule order preserved: exact
synonym sets, substring heuristics, alias dictionary, slash splitting,
title-case fallback). -/
def canonical_categoria (raw : String) : String :=
  let base := normalize_text raw
  if base == "folha" || base == "folha complementar" || base == "folha comp"
      || base == "folhacomplementar"
      || (substrIn "folha" base && substrIn "complementar" base) then "Folha"
  else if base == "rescisao" || base == "rescisao comp" || base == "rescisao complementar"
      || base == "rescisao compl" || base == "rescisao comp."
      || (substrIn "rescisao" base && substrIn "complementar" base) then "Rescisão"
  else
    match categoriaAlias base with
    | some v => v
    | none =>
      if substrIn "/" raw then
        let parts := ((pySplitOn '/' raw).map pyStrip).filter (fun p => p ≠ "")
        if parts.any (fun p => substrIn "folha" (normalize_text p)) then "Folha"
        else if parts.any (fun p => substrIn "rescisao" (normalize_text p)) then "Rescisão"
        else categoriaFallback raw
      else categoriaFallback raw

/-- Numeric value of a digit string. -/
def digitsVal (cs : List Char) : ℕ :=
  cs.foldl (fun n c => n * 10 + (c.toNat - 48)) 0

/-- Python float() on a cleaned token, modelled for plain decimal
literals: optional sign, digits around at most one decimal point, at
least one digit.  Returns none where float() raises ValueError. -/
def parseDecimal (s : String) : Option ℚ :=
  let cs := s.data
  let sgn : ℚ := match cs with | '-' :: _ => -1 | _ => 1
  let cs1 := match cs with
    | '+' :: rest => rest
    | '-' :: rest => rest
    | _ => cs
  let ip := cs1.takeWhile (fun c => c ≠ '.')
  let rest := cs1.dropWhile (fun c => c ≠ '.')
  match rest with
  | [] =>
    if ip ≠ [] ∧ ip.all Char.isDigit then some (sgn * digitsVal ip) else none
  | _ :: fp =>
    if fp.all (fun c => c ≠ '.') ∧ (ip ≠ [] ∨ fp ≠ []) ∧ ip.all Char.isDigit ∧ fp.all Char.isDigit
    then some (sgn * ((digitsVal ip : ℚ) + (digitsVal fp : ℚ) / (10 ^ fp.length)))
    else none

/-- parse_brl_decimal from app.py: strip, drop thousands dots, turn the
decimal comma into a point, then float().  none models the ValueError
of float() on a malformed token. -/
def parse_brl_decimal (s : String) : Option ℚ :=
  parseDecimal (swapChar ',' '.' (removeChar '.' (pyStrip s)))

/-- Boolean strict lexicographic comparison of character lists. -/
def clLt : List Char → List Char → Bool
  | [], [] => false
  | [], _ :: _ => true
  | _ :: _, [] => false
  | a :: as, b :: bs => if a = b then clLt as bs else decide (a.val < b.val)

/-- Boolean strict lexicographic order on strings (Python string <). -/
def strLtB (a b : String) : Bool := clLt a.data b.data

/-- Boolean lexicographic order on strings (Python string <=). -/
def strLeB (a b : String) : Bool := strLtB a b || a == b

/-- Keep the first occurrence of each element (pandas drop_duplicates),
with an accumulator of already seen elements. -/
def firstDedupAux [DecidableEq α] (seen : List α) : List α → List α
  | [] => []
  | a :: as => if a ∈ seen then firstDedupAux seen as else a :: firstDedupAux (a :: seen) as

/-- Keep the first occurrence of each element (pandas drop_duplicates). -/
def firstDedup [DecidableEq α] (l : List α) : List α := firstDedupAux [] l

/-- pandas groupby(key).sum over a record list: one output pair per
distinct key carrying the sum of the values of its group.  Keys are
listed in first-occurrence order; the reconciliation views sort their
rows afterwards, so no stated property depends on group order. -/
def groupSum [DecidableEq κ] (key : α → κ) (val : α → ℚ) (l : List α) : List (κ × ℚ) :=
  (firstDedup (l.map key)).map
    (fun k => (k, ((l.filter (fun a => decide (key a = k))).map val).sum))

/-- pandas merge(how=left): every left row paired with each matching
right row, or with none when no right row matches. -/
def mergeLeft (ls : List α) (rs : List β) (p : α → β → Bool) (mk : α → Option β → γ) : List γ :=
  ls.bind (fun l =>
    let ms := rs.filter (p l)
    if ms.isEmpty then [mk l none] else ms.map (fun m => mk l (some m)))

/-- pandas merge(how=outer): the left join rows followed by the right
rows that match no left row. -/
def mergeOuter (ls : List α) (rs : List β) (p : α → β → Bool)
    (mkL : α → Option β → γ) (mkR : β → γ) : List γ :=
  mergeLeft ls rs p mkL ++ (rs.filter (fun r => !(ls.any (fun l => p l r)))).map mkR

/-- Python truthiness of a string: non-empty is true.  Used to embed
the constant string operand in the source's condition
`... or "rescisao contrato" or ...` literally. -/
def pyTruthy (s : String) : Bool := !s.isEmpty

/-- classify_txt_by_description from app.py, including the source's
bare string literal "rescisao contrato" as an operand of `or` (which
is always truthy in Python). -/
def classify_txt_by_description (descricao : String) : String :=
  let d := normalize_text descricao
  if substrIn "fgts" d then "Impostos"
  else if substrIn "rescisao de contrato" d || pyTruthy "rescisao contrato" || substrIn "rescisao" d then
    "Rescisão"
  else if substrIn "ferias" d then "Férias"
  else if substrIn "adiantamento" d then "Adiantamento"
  else if substrIn "folha de pagamento" d || substrIn "folha pagamento" d then "Folha"
  else if substrIn "folha" d then "Folha"
  else "Sem Mapeamento"

/-- A row of parse_pdf_events (Categoria, EventoCod, EventoNome,
Sinal, Valor). -/
structure EventRow where
  categoria : String
  eventoCod : String
  eventoNome : String
  sinal : String
  valor : ℚ
deriving DecidableEq, Inhabited

/-- A row of sum_pdf_by_categoria / sum_txt_by_categoria (Categoria,
Adicionais, Descontos, Liquido). -/
structure CatTotal where
  categoria : String
  adicionais : ℚ
  descontos : ℚ
  liquido : ℚ
deriving DecidableEq, Inhabited

/-- A row of compare_by_categoria (Categoria, Líquido PDF, Líquido
TXT, Diferença, Status). -/
structure CompCatRow where
  categoria : String
  liquidoPDF : ℚ
  liquidoTXT : ℚ
  dif : ℚ
  status : String
deriving DecidableEq, Inhabited

/-- sum_pdf_by_categoria from app.py: canonicalize categories, split
the signed values into Adicionais (value > 0) and Descontos
(value < 0), group-sum each by category, outer-merge on category with
missing sides filled with 0, and set Liquido to their sum. -/
def sum_pdf_by_categoria (dfPdf : List EventRow) : List CatTotal :=
  if dfPdf.isEmpty then [] else
  let df2 := dfPdf.map (fun r => { r with categoria := canonical_categoria r.categoria })
  let adicionais := groupSum (fun r : EventRow => r.categoria) (fun r => r.valor)
    (df2.filter (fun r => decide (0 < r.valor)))
  let descontos := groupSum (fun r : EventRow => r.categoria) (fun r => r.valor)
    (df2.filter (fun r => decide (r.valor < 0)))
  mergeOuter adicionais descontos (fun a d => decide (a.1 = d.1))
    (fun a od =>
      { categoria := a.1, adicionais := a.2, descontos := (od.map Prod.snd).getD 0,
        liquido := a.2 + (od.map Prod.snd).getD 0 })
    (fun d => { categoria := d.1, adicionais := 0, descontos := d.2, liquido := 0 + d.2 })

/-- compare_by_categoria from app.py: outer-merge the two per-category
aggregates on Categoria with missing sides filled with 0, keep the two
Liquido columns, set Diferença to their difference, classify Status by
the strict 0.01 threshold on its absolute value, and sort by
Categoria. -/
def compare_by_categoria (pdfSum txtSum : List CatTotal) : List CompCatRow :=
  let merged := mergeOuter pdfSum txtSum (fun a b => decide (a.categoria = b.categoria))
    (fun a ob => (a.categoria, a.liquido, (ob.map CatTotal.liquido).getD 0))
    (fun b => (b.categoria, 0, b.liquido))
  let rows := merged.map (fun m : String × ℚ × ℚ =>
    { categoria := m.1, liquidoPDF := m.2.1, liquidoTXT := m.2.2,
      dif := m.2.1 - m.2.2,
      status := if |m.2.1 - m.2.2| < 1 / 100 then "✅ OK" else "⚠️ DIVERGENTE" : CompCatRow })
  rows.insertionSort (fun x y => strLeB x.categoria y.categoria = true)

/-- One entry of the loaded mapping: event code and ledger code for a
category (as produced by load_mapping). -/
structure MapItem where
  evento : String
  codigo_lancamento : String
deriving DecidableEq, Inhabited

/-- The mapping dict: category name to its list of entries, in
insertion order. -/
abbrev Mapping := List (String × List MapItem)

/-- Python dict built by successive assignment (later writes win),
read with .get and a default. -/
def dictGetLast (pairs : List (String × String)) (k d : String) : String :=
  match (pairs.filter (fun p => p.1 == k)).getLast? with
  | some p => p.2
  | none => d

/-- mapping_la_to_categoria from app.py: the (ledger code, category)
assignments in iteration order; a lookup through dictGetLast realizes
the dict's last-write-wins collision rule. -/
def mapping_la_to_categoria (m : Mapping) : List (String × String) :=
  m.bind (fun ci => ci.2.filterMap (fun it =>
    let la := pyStrip it.codigo_lancamento
    if la ≠ "" then some (la, ci.1) else none))

/-- mapping_event_to_la from app.py: deduplicated
(category, event digits, ledger code) triples, keeping entries where
both codes are non-empty. -/
def mapping_event_to_la (m : Mapping) : List (String × String × String) :=
  firstDedup (m.bind (fun ci => ci.2.filterMap (fun it =>
    let ev := digitsOf it.evento
    let la := it.codigo_lancamento
    if ev ≠ "" ∧ la ≠ "" then some (ci.1, ev, la) else none)))

/-- A row of parse_txt_codes_values (CodigoLA, Valor, Descricao);
CodigoLA is None when the code field was empty. -/
structure TxtRow where
  codigoLA : Option String
  valor : ℚ
  descricao : String
deriving DecidableEq, Inhabited

/-- pandas df_txt.groupby("CodigoLA").sum on the Valor column; rows
whose key is None are dropped by pandas groupby. -/
def txtAggByLA (df : List TxtRow) : List (String × ℚ) :=
  groupSum Prod.fst Prod.snd (df.filterMap (fun r => r.codigoLA.map (fun c => (c, r.valor))))

/-- A row of sum_txt_by_event (Categoria, EventoCod, CodigoLA,
ValorTXT). -/
structure SumTxtRow where
  categoria : String
  eventoCod : String
  codigoLA : String
  valorTXT : ℚ
deriving DecidableEq, Inhabited

/-- sum_txt_by_event from app.py: aggregate the TXT postings by ledger
code, attach a category through the la→categoria dict (default "Sem
Mapeamento") canonicalized, strip/digit-normalize the key columns, and
left-merge the event map with the aggregate on (CodigoLA, Categoria),
filling missing ledger values with 0. -/
def sum_txt_by_event (dfTxt : List TxtRow) (evMap : List (String × String × String))
    (la2cat : List (String × String)) : List SumTxtRow :=
  if dfTxt.isEmpty || evMap.isEmpty then [] else
  let txtLa : List (String × String × ℚ) := (txtAggByLA dfTxt).map (fun cv =>
    (pyStrip cv.1, canonical_categoria (dictGetLast la2cat (pyStrip cv.1) "Sem Mapeamento"), cv.2))
  let evMap2 := evMap.map (fun t => (t.1, digitsOf t.2.1, pyStrip t.2.2))
  mergeLeft evMap2 txtLa (fun e t => decide (t.1 = e.2.2 ∧ t.2.1 = e.1))
    (fun e ot =>
      { categoria := e.1, eventoCod := e.2.1, codigoLA := e.2.2,
        valorTXT := (ot.map (fun t => t.2.2)).getD 0 })

/-- The intermediate pdf_m row of compare_by_event: the per-(category,
event) PDF aggregate left-merged with the event→ledger map. -/
structure PdfMRow where
  categoria : String
  eventoCod : String
  eventoNome : String
  valorPDF : ℚ
  codigoLA : Option String
deriving DecidableEq, Inhabited

/-- A row of the compare_by_event report (Categoria, EventoCod,
EventoNome, CodigoLA, ValorPDF, ValorTXT, Diferença). -/
structure ReportRow where
  categoria : String
  eventoCod : String
  eventoNome : String
  codigoLA : Option String
  valorPDF : ℚ
  valorTXT : ℚ
  dif : ℚ
deriving DecidableEq, Inhabited

/-- The EventoNome aggregation of compare_by_event (first non-empty
name of the (category, event) group); the source merges this names
frame back on the identical unique key set, which is embedded as a
per-key lookup. -/
def nomeOf (dfPdf : List EventRow) (cat ev : String) : String :=
  ((((dfPdf.filter (fun r => decide (r.categoria = cat ∧ r.eventoCod = ev))).map
    (fun r => r.eventoNome)).find? (fun s => s ≠ "")).getD "")

/-- The first of compare_by_event's three outputs (the report frame):
group the PDF events by (category, event), left-merge with the
event→ledger map, left-merge with sum_txt_by_event on (Categoria,
EventoCod, CodigoLA) — a missing-ledger row keeps ValorTXT = 0 — set
the difference column, and sort by (Categoria, EventoCod).  The
sem-mapeamento and extra-ledger views derived afterwards are not
needed by the stated claims. -/
def compare_by_event_report (dfPdf : List EventRow) (dfTxt : List TxtRow) (m : Mapping) :
    List ReportRow :=
  if dfPdf.isEmpty then [] else
  let pdfEv := groupSum (fun r : EventRow => (r.categoria, r.eventoCod)) (fun r => r.valor) dfPdf
  let ev2la := mapping_event_to_la m
  let pdfM : List PdfMRow := mergeLeft pdfEv ev2la
    (fun p e => decide (e.1 = p.1.1 ∧ e.2.1 = p.1.2))
    (fun p oe =>
      { categoria := p.1.1, eventoCod := p.1.2, eventoNome := nomeOf dfPdf p.1.1 p.1.2,
        valorPDF := p.2, codigoLA := oe.map (fun e => e.2.2) })
  let la2cat := mapping_la_to_categoria m
  let txtByEv := sum_txt_by_event dfTxt ev2la la2cat
  let report := mergeLeft pdfM txtByEv
    (fun p t => decide (t.categoria = p.categoria ∧ t.eventoCod = p.eventoCod
      ∧ some t.codigoLA = p.codigoLA))
    (fun p ot =>
      let vt := (ot.map (fun t => t.valorTXT)).getD 0
      { categoria := p.categoria, eventoCod := p.eventoCod, eventoNome := p.eventoNome,
        codigoLA := p.codigoLA, valorPDF := p.valorPDF, valorTXT := vt,
        dif := p.valorPDF - vt })
  report.insertionSort (fun x y =>
    (strLtB x.categoria y.categoria
      || (x.categoria == y.categoria && strLeB x.eventoCod y.eventoCod)) = true)

/-- A row of compare_by_la (Categoria, CodigoLA, ValorPDF_LA,
ValorTXT_LA, Diferença). -/
structure LaRow where
  categoria : String
  codigoLA : String
  valorPDF : ℚ
  valorTXT : ℚ
  dif : ℚ
deriving DecidableEq, Inhabited

/-- Python float(str) as used by astype(float): whitespace-tolerant
decimal parse. -/
def pyFloatOfStr (s : String) : Option ℚ := parseDecimal (pyStrip s)

/-- Comparison on the auxiliary numeric sort column; a missing value
(NaN) sorts last as in pandas. -/
def optLtB : Option ℚ → Option ℚ → Bool
  | none, _ => false
  | some _, none => true
  | some a, some b => decide (a < b)

/-- The sort key of compare_by_la: Categoria, then the ledger code as
a number when the whole column parses (the source's astype(float) in a
try/except that nulls the column if any code fails), then the ledger
code as text. -/
def laSortLe (allOk : Bool) (x y : LaRow) : Bool :=
  let nx := if allOk then pyFloatOfStr x.codigoLA else none
  let ny := if allOk then pyFloatOfStr y.codigoLA else none
  if x.categoria ≠ y.categoria then strLtB x.categoria y.categoria
  else if nx ≠ ny then optLtB nx ny
  else strLeB x.codigoLA y.codigoLA

/-- compare_by_la from app.py: PDF events joined to ledger codes via
the event map and summed by (category, ledger code); TXT postings
summed by ledger code with category from the reverse lookup; both
category columns canonicalized; outer merge on (Categoria, CodigoLA)
with missing sides filled with 0 and the difference column set;
sorted by category and numeric ledger code. -/
def compare_by_la (dfPdf : List EventRow) (dfTxt : List TxtRow) (m : Mapping) : List LaRow :=
  let ev2la := mapping_event_to_la m
  let la2cat := mapping_la_to_categoria m
  let pdfLa : List ((String × String) × ℚ) :=
    if dfPdf.isEmpty || ev2la.isEmpty then [] else
    let pdfM := dfPdf.map (fun r => { r with eventoCod := digitsOf r.eventoCod })
    let ev2la2 := ev2la.map (fun t => (t.1, digitsOf t.2.1, t.2.2))
    let joined := mergeLeft pdfM ev2la2
      (fun r e => decide (e.1 = r.categoria ∧ e.2.1 = r.eventoCod))
      (fun r oe => (r, oe.map (fun e => e.2.2)))
    let joined2 := joined.filterMap (fun rl => rl.2.map (fun l => (rl.1, l)))
    if joined2.isEmpty then [] else
    groupSum (fun rl => (rl.1.categoria, rl.2)) (fun rl => rl.1.valor) joined2
  let txtLa : List ((String × String) × ℚ) :=
    if dfTxt.isEmpty then [] else
    (txtAggByLA dfTxt).map (fun cv =>
      ((dictGetLast la2cat (pyStrip cv.1) "Sem Mapeamento", cv.1), cv.2))
  let pdfLa2 := pdfLa.map (fun kv => ((canonical_categoria kv.1.1, kv.1.2), kv.2))
  let txtLa2 := txtLa.map (fun kv => ((canonical_categoria kv.1.1, kv.1.2), kv.2))
  let merged := mergeOuter pdfLa2 txtLa2 (fun p t => decide (p.1 = t.1))
    (fun p ot =>
      let vt := (ot.map Prod.snd).getD 0
      { categoria := p.1.1, codigoLA := p.1.2, valorPDF := p.2, valorTXT := vt,
        dif := p.2 - vt : LaRow })
    (fun t =>
      { categoria := t.1.1, codigoLA := t.1.2, valorPDF := 0, valorTXT := t.2,
        dif := 0 - t.2 : LaRow })
  let allOk := (merged.map (fun r => pyFloatOfStr r.codigoLA)).all Option.isSome
  merged.insertionSort (fun x y => laSortLe allOk x y = true)

/-- A positioned text token of a summary page, as delivered by the
page-extraction layer (text, horizontal start/end, vertical
top/bottom).  Coordinates are exact rationals. -/
structure Word where
  text : String
  x0 : ℚ
  x1 : ℚ
  top : ℚ
  bottom : ℚ
deriving DecidableEq, Inhabited

/-- The Python sorted key (top, x0) of the word sort before line
grouping. -/
def wordSortLe (a b : Word) : Bool :=
  decide (a.top < b.top) || (decide (a.top = b.top) && decide (a.x0 ≤ b.x0))

/-- Accumulating loop of the word-to-line grouping: a word joins the
current line when its vertical center is within the tolerance of the
previous word's center, else it starts a new line. -/
def groupWordsAux (yTol : ℚ) : List Word → List Word → Option ℚ → List (List Word)
  | [], current, _ => if current.isEmpty then [] else [current]
  | w :: ws, current, lastY =>
    let y := (w.top + w.bottom) / 2
    let fits := match lastY with
      | none => true
      | some ly => decide (|y - ly| ≤ yTol)
    if fits then groupWordsAux yTol ws (current ++ [w]) (some y)
    else current :: groupWordsAux yTol ws [w] (some y)

/-- The line-grouping helper of app.py (leading underscore dropped
from the source name): sort words by (top, x0) and group successive
words whose vertical centers differ by at most 3. -/
def group_words_by_line (words : List Word) : List (List Word) :=
  groupWordsAux 3 (words.insertionSort (fun a b => wordSortLe a b = true)) [] none

/-- Insertion-ordered dict write: replace an existing key in place,
else append. -/
def upsert (l : List (String × ℚ)) (k : String) (v : ℚ) : List (String × ℚ) :=
  match l with
  | [] => [(k, v)]
  | p :: ps => if p.1 = k then (k, v) :: ps else p :: upsert ps k v

/-- One word of the header scan: record the horizontal center under
each column name whose variant set contains the normalized text (the
five checks of the source's name_map loop). -/
def headerStep (centers : List (String × ℚ)) (w : Word) : List (String × ℚ) :=
  let txt := normalize_text w.text
  let cx := (w.x0 + w.x1) / 2
  let c1 := if txt = "codigo" ∨ txt = "código" then upsert centers "codigo" cx else centers
  let c2 := if txt = "evento" then upsert c1 "evento" cx else c1
  let c3 := if txt = "quantidade" then upsert c2 "quantidade" cx else c2
  let c4 := if txt = "valor" then upsert c3 "valor" cx else c3
  if txt = "funcionarios" ∨ txt = "funcionários" then upsert c4 "funcionarios" cx else c4

/-- The header detector of app.py (leading underscore dropped): the
centers dict when all five column labels were found on the line, else
none. -/
def find_header_centers (lineWords : List Word) : Option (List (String × ℚ)) :=
  let centers := lineWords.foldl headerStep []
  if ["codigo", "evento", "quantidade", "valor", "funcionarios"].all
      (fun k => centers.any (fun p => p.1 == k))
  then some centers else none

/-- Python min over the centers dict by horizontal distance; the first
minimal entry in insertion order wins, as min does. -/
def nearestKey (centers : List (String × ℚ)) (cx : ℚ) : String :=
  match centers with
  | [] => ""
  | c :: cs => (cs.foldl (fun best p =>
      if |cx - p.2| < |cx - best.2| then p else best) c).1

/-- The per-column text of the column assignment of app.py (leading
underscore dropped): words whose center is nearest to the given
column, sorted by x0, joined with spaces and stripped. -/
def assignColText (lineWords : List Word) (centers : List (String × ℚ)) (key : String) :
    String :=
  let mine := lineWords.filter (fun w => nearestKey centers ((w.x0 + w.x1) / 2) == key)
  pyStrip (String.intercalate " "
    ((mine.insertionSort (fun a b => decide (a.x0 ≤ b.x0) = true)).map (fun w => w.text)))

/-- The joined text of a line (words sorted by x0, space separated,
stripped). -/
def lineText (lineWords : List Word) : String :=
  pyStrip (String.intercalate " "
    ((lineWords.insertionSort (fun a b => decide (a.x0 ≤ b.x0) = true)).map (fun w => w.text)))

/-- The category-title test of parse_pdf_events: non-empty normalized
line of at most 80 characters with no digit outside slashes, that
contains a slash or one of the fixed category keywords. -/
def isCategoriaLine (lineWords : List Word) : Bool :=
  let lt := lineText lineWords
  let nl := normalize_text lt
  !(nl == "") && decide (nl.length ≤ 80)
    && !((removeChar '/' nl).data.any Char.isDigit)
    && (substrIn "/" lt
      || ["folha", "rescisao", "férias", "ferias", "adiantamento",
          "pro labore", "pró-labore", "decimo", "décimo"].any (fun tok => substrIn tok nl))

/-- The block-terminator test of parse_pdf_events on the normalized
line text. -/
def isFooterLine (nl : String) : Bool :=
  ["totais", "base inss", "base irrf", "base fgts", "líquidos", "liquidos"].any
    (fun k => substrIn k nl)

/-- Sign detection on the code column: a leading "+" or "-" is removed
and returned, defaulting to "+". -/
def sinalOf (codigoCol : String) : String × String :=
  match codigoCol.data with
  | '+' :: rest => ("+", pyStrip (String.mk rest))
  | '-' :: rest => ("-", pyStrip (String.mk rest))
  | _ => ("+", codigoCol)

/-- The amount token of the value column: the last whitespace token
containing a decimal comma after thousands dots are removed, falling
back to the whole column text. -/
def valorToken (valorTxt : String) : String :=
  let candidates := (pySplitWs (removeChar '.' valorTxt)).filter (fun t => substrIn "," t)
  match candidates.getLast? with
  | some t => t
  | none => valorTxt

/-- The event-name cleanup regex of parse_pdf_events
(leading signs/spaces, then 1 to 6 digits, then whitespace, keep the
rest): no match leaves the text unchanged. -/
def eventoClean (eventoCol : String) : String :=
  let cs := eventoCol.data
  let cs1 := cs.dropWhile (fun c => c = '+' || c = '-' || c.isWhitespace)
  let ds := cs1.takeWhile Char.isDigit
  let rest1 := cs1.dropWhile Char.isDigit
  let ws := rest1.takeWhile Char.isWhitespace
  let rest := rest1.dropWhile Char.isWhitespace
  if 1 ≤ ds.length ∧ ds.length ≤ 6 ∧ 1 ≤ ws.length then pyStrip (String.mk rest)
  else eventoCol

/-- The emitted event row of one data line: the detected sign is
applied to the absolute parsed amount (negative for "-"), and the
cleaned code, name and sign are stored alongside. -/
def dataRow (cat codigoDigits eventoCol sinal : String) (v : ℚ) : EventRow :=
  { categoria := cat, eventoCod := codigoDigits, eventoNome := eventoClean eventoCol,
    sinal := sinal, valor := if sinal = "-" then -|v| else |v| }

/-- The loop state of parse_pdf_events: accumulated rows, current and
pending category, recorded column centers, in-data-block flag. -/
structure PState where
  rows : List EventRow
  currentCat : String
  pendingCat : Option String
  centers : Option (List (String × ℚ))
  inBlock : Bool
deriving DecidableEq, Inhabited

/-- The initial state of parse_pdf_events. -/
def initPState : PState :=
  { rows := [], currentCat := "Sem Categoria", pendingCat := none,
    centers := none, inBlock := false }

/-- One line of the parse_pdf_events loop: category titles stash a
pending category and reset the block; header lines commit it and open
a block; inside a block, terminator keywords close it, a line with an
empty value column or an unparseable amount is skipped, a code column
without digits closes the block, and otherwise a signed event row is
appended (the sign is applied to the stored value). -/
def stepLine (s : PState) (line : List Word) : PState :=
  let lt := lineText line
  let nl := normalize_text lt
  if isCategoriaLine line then
    { s with pendingCat := some (canonical_categoria lt), centers := none, inBlock := false }
  else
    match find_header_centers line with
    | some c =>
      match s.pendingCat with
      | some p =>
        { s with centers := some c, currentCat := p, pendingCat := none, inBlock := true }
      | none => { s with centers := some c, inBlock := true }
    | none =>
      match s.centers with
      | none => s
      | some c =>
        if !s.inBlock then s
        else if isFooterLine nl then { s with centers := none, inBlock := false }
        else
          let codigoCol := pyStrip (assignColText line c "codigo")
          let eventoCol := pyStrip (assignColText line c "evento")
          let valorTxt := pyStrip (assignColText line c "valor")
          if valorTxt = "" then s
          else
            let sc := sinalOf codigoCol
            let codigoDigits := digitsOf sc.2
            if codigoDigits = "" then { s with centers := none, inBlock := false }
            else
              match parse_brl_decimal (valorToken valorTxt) with
              | none => s
              | some v =>
                { s with rows := s.rows ++
                    [dataRow s.currentCat codigoDigits eventoCol sc.1 v] }

/-- parse_pdf_events from app.py over the positioned words of each
page (the page-rendering layer that produces them is outside the
embedding): fold the line processor over the grouped lines of every
page, state persisting across pages, and return the accumulated rows. -/
def parse_pdf_events (pages : List (List Word)) : List EventRow :=
  (pages.foldl (fun st page => (group_words_by_line page).foldl stepLine st) initPState).rows

/-- A one-page sample document: a header line followed by one data
line carrying a "-" sign before the event code. -/
def samplePage : List Word :=
  [⟨"Codigo", 0, 10, 0, 2⟩, ⟨"Evento", 20, 30, 0, 2⟩, ⟨"Quantidade", 40, 50, 0, 2⟩,
   ⟨"Valor", 60, 70, 0, 2⟩, ⟨"Funcionarios", 80, 90, 0, 2⟩,
   ⟨"-101", 0, 4, 10, 12⟩, ⟨"SALARIO", 20, 27, 10, 12⟩, ⟨"1,00", 40, 44, 10, 12⟩,
   ⟨"100,00", 60, 66, 10, 12⟩, ⟨"5", 80, 81, 10, 12⟩]

/-- Column centers as recorded from the sample header line. -/
def sampleCenters : List (String × ℚ) :=
  [("codigo", 5), ("evento", 25), ("quantidade", 45), ("valor", 65), ("funcionarios", 85)]

/-- An in-block state with the sample centers. -/
def sampleState : PState :=
  { rows := [], currentCat := "Sem Categoria", pendingCat := none,
    centers := some sampleCenters, inBlock := true }

/-- A data line whose amount token cannot be parsed. -/
def badAmountLine : List Word :=
  [⟨"102", 0, 4, 10, 12⟩, ⟨"X", 20, 21, 10, 12⟩, ⟨"AB,CD", 60, 66, 10, 12⟩]

/-- The sign/value relation every emitted summary row satisfies. -/
def rowSignOk (r : EventRow) : Prop :=
  (r.sinal = "-" → r.valor ≤ 0) ∧ (r.sinal ≠ "-" → 0 ≤ r.valor)

/-- parse_brl_decimal of app_resumos.py: the same cleaning as app.py
but with a try/except that turns a failed float() into 0.0 (it never
raises). -/
def parse_brl_decimal_resumos (s : String) : ℚ := (parse_brl_decimal s).getD 0

/-- Python str.strip(c) for a single character: remove it from both
ends. -/
def stripCharEnds (c : Char) (cs : List Char) : List Char :=
  ((cs.dropWhile (fun x => x = c)).reverse.dropWhile (fun x => x = c)).reverse

/-- A ledger posting row of parse_txt_lancamentos (CodigoLA, Valor,
Descricao). -/
structure Lancamento where
  codigoLA : String
  valor : ℚ
  descricao : String
deriving DecidableEq, Inhabited

/-- The cleaned ledger code of a record: field 2 stripped, then
stripped of double and single quotes and stripped again. -/
def lancCodigo (partes : List String) : String :=
  let cod := if 1 < partes.length then pyStrip ((partes.get? 1).getD "") else ""
  pyStrip (String.mk (stripCharEnds '\'' (stripCharEnds '"' cod.data)))

/-- The stripped amount field (column 4) of a record. -/
def lancValorStr (partes : List String) : String :=
  if 3 < partes.length then pyStrip ((partes.get? 3).getD "") else ""

/-- The stripped description field (column 8) of a record. -/
def lancDescricao (partes : List String) : String :=
  if 7 < partes.length then pyStrip ((partes.get? 7).getD "") else ""

/-- The loop body of parse_txt_lancamentos for one delimited record:
skip records with under 4 fields, with an empty or non-numeric ledger
code, with a ledger code under 4 digits, or whose amount parses to 0
(which includes every missing or malformed amount, since the
parse helper returns 0 instead of raising); otherwise emit the posting
with the absolute amount. -/
def rowOfLancamento (partes : List String) : Option Lancamento :=
  if partes.isEmpty ∨ partes.length < 4 then none
  else
    let codigoLA := lancCodigo partes
    if codigoLA = "" ∨ ¬(codigoLA.data.all Char.isDigit = true) then none
    else if codigoLA.length < 4 then none
    else
      let valor := parse_brl_decimal_resumos (lancValorStr partes)
      if valor ≠ 0 then some ⟨codigoLA, |valor|, lancDescricao partes⟩ else none

/-- parse_txt_lancamentos of app_resumos.py over the already-decoded,
delimiter-split records (byte decoding and quote-aware csv splitting
are the input boundary of the embedding): one optional posting per
record. -/
def parse_txt_lancamentos (recs : List (List String)) : List Lancamento :=
  recs.filterMap rowOfLancamento

end DP

namespace DP

theorem mem_firstDedupAux [DecidableEq α] {a : α} :
    ∀ {l seen : List α}, a ∈ firstDedupAux seen l ↔ a ∈ l ∧ a ∉ seen := by
  intro l
  induction l with
  | nil => intro seen; simp [firstDedupAux]
  | cons b bs ih =>
    intro seen
    rw [firstDedupAux]
    by_cases hb : b ∈ seen
    · rw [if_pos hb, ih]
      constructor
      · rintro ⟨h1, h2⟩; exact ⟨List.mem_cons_of_mem _ h1, h2⟩
      · rintro ⟨h1, h2⟩
        rcases List.mem_cons.mp h1 with rfl | h1
        · exact absurd hb h2
        · exact ⟨h1, h2⟩
    · rw [if_neg hb]
      constructor
      · intro h1
        rcases List.mem_cons.mp h1 with rfl | h1
        · exact ⟨List.mem_cons_self _ _, hb⟩
        · rcases ih.mp h1 with ⟨h2, h3⟩
          exact ⟨List.mem_cons_of_mem _ h2, fun hs => h3 (List.mem_cons_of_mem _ hs)⟩
      · rintro ⟨h1, h2⟩
        rcases List.mem_cons.mp h1 with rfl | h1
        · exact List.mem_cons_self _ _
        · by_cases hab : a = b
          · subst hab; exact List.mem_cons_self _ _
          · refine List.mem_cons_of_mem _ (ih.mpr ⟨h1, ?_⟩)
            intro hs
            rcases List.mem_cons.mp hs with h | h
            · exact hab h
            · exact h2 h

theorem mem_firstDedup [DecidableEq α] {a : α} {l : List α} :
    a ∈ firstDedup l ↔ a ∈ l := by
  rw [firstDedup, mem_firstDedupAux]; simp

theorem groupSum_val [DecidableEq κ] {key : α → κ} {val : α → ℚ} {l : List α} {k : κ} {v : ℚ}
    (h : (k, v) ∈ groupSum key val l) :
    v = ((l.filter (fun a => decide (key a = k))).map val).sum ∧ k ∈ l.map key := by
  rcases List.mem_map.mp h with ⟨k2, hk2, heq⟩
  obtain ⟨rfl, rfl⟩ : k2 = k ∧ ((l.filter (fun a => decide (key a = k2))).map val).sum = v := by
    constructor
    · exact congrArg Prod.fst heq
    · exact congrArg Prod.snd heq
  exact ⟨rfl, mem_firstDedup.mp hk2⟩

theorem groupSum_key_of_mem [DecidableEq κ] (key : α → κ) (val : α → ℚ) {l : List α} {a : α}
    (ha : a ∈ l) : ∃ v, (key a, v) ∈ groupSum key val l := by
  refine ⟨_, List.mem_map.mpr ⟨key a, ?_, rfl⟩⟩
  exact mem_firstDedup.mpr (List.mem_map.mpr ⟨a, ha, rfl⟩)

theorem mem_mergeLeft_elim {ls : List α} {rs : List β} {p : α → β → Bool}
    {mk : α → Option β → γ} {g : γ} (h : g ∈ mergeLeft ls rs p mk) :
    ∃ l ∈ ls, g = mk l none ∨ ∃ m ∈ rs, p l m = true ∧ g = mk l (some m) := by
  rcases List.mem_bind.mp h with ⟨l, hl, hg⟩
  refine ⟨l, hl, ?_⟩
  by_cases hms : (rs.filter (p l)).isEmpty
  · rw [if_pos hms] at hg
    exact Or.inl (List.mem_singleton.mp hg)
  · rw [if_neg hms] at hg
    rcases List.mem_map.mp hg with ⟨m, hm, hmk⟩
    rcases List.mem_filter.mp hm with ⟨hmrs, hpm⟩
    exact Or.inr ⟨m, hmrs, hpm, hmk.symm⟩

theorem mem_mergeLeft_of_left {ls : List α} (rs : List β) (p : α → β → Bool)
    (mk : α → Option β → γ) {l : α} (hl : l ∈ ls) :
    ∃ ob : Option β, mk l ob ∈ mergeLeft ls rs p mk := by
  by_cases hms : (rs.filter (p l)).isEmpty
  · exact ⟨none, List.mem_bind.mpr ⟨l, hl, by rw [if_pos hms]; exact List.mem_singleton_self _⟩⟩
  · have hne : rs.filter (p l) ≠ [] := fun hc => hms (by rw [hc]; rfl)
    rcases List.exists_mem_of_ne_nil _ hne with ⟨m, hm⟩
    exact ⟨some m, List.mem_bind.mpr ⟨l, hl, by
      rw [if_neg hms]; exact List.mem_map.mpr ⟨m, hm, rfl⟩⟩⟩

theorem mem_mergeOuter_elim {ls : List α} {rs : List β} {p : α → β → Bool}
    {mkL : α → Option β → γ} {mkR : β → γ} {g : γ}
    (h : g ∈ mergeOuter ls rs p mkL mkR) :
    (∃ l ∈ ls, g = mkL l none ∨ ∃ m ∈ rs, p l m = true ∧ g = mkL l (some m))
    ∨ ∃ r ∈ rs, g = mkR r := by
  rcases List.mem_append.mp h with h1 | h1
  · exact Or.inl (mem_mergeLeft_elim h1)
  · rcases List.mem_map.mp h1 with ⟨r, hr, hmk⟩
    exact Or.inr ⟨r, (List.mem_filter.mp hr).1, hmk.symm⟩

theorem sum_nonpos_of_nonpos {l : List ℚ} (h : ∀ x ∈ l, x ≤ 0) : l.sum ≤ 0 := by
  induction l with
  | nil => simp
  | cons a as ih =>
    rw [List.sum_cons]
    have ha := h a (List.mem_cons_self a as)
    have has := ih (fun x hx => h x (List.mem_cons_of_mem a hx))
    linarith

theorem headD_mem {l : List α} (d : α) (h : l ≠ []) : l.headD d ∈ l := by
  cases l with
  | nil => exact absurd rfl h
  | cons a as => exact List.mem_cons_self a as

end DP

/-- C1: every row of compare_by_categoria is classified "✅ OK"
exactly when the absolute difference is strictly below 0.01; a
difference of exactly 0.01 is Divergent and one of 0.009999 is a
Match. -/
theorem compare_by_categoria_status :
    (∀ (a b : List DP.CatTotal) (r : DP.CompCatRow), r ∈ DP.compare_by_categoria a b →
      (r.status = "✅ OK" ↔ |r.dif| < 1 / 100))
    ∧ (∃ r ∈ DP.compare_by_categoria [⟨"A", 0, 0, 1 / 100⟩] [],
        r.dif = 1 / 100 ∧ r.status = "⚠️ DIVERGENTE")
    ∧ (∃ r ∈ DP.compare_by_categoria [⟨"A", 0, 0, 9999 / 1000000⟩] [],
        r.dif = 9999 / 1000000 ∧ r.status = "✅ OK") := by
  refine ⟨?_, ?_, ?_⟩
  · intro a b r hr
    unfold DP.compare_by_categoria at hr
    rw [List.mem_insertionSort] at hr
    rcases List.mem_map.mp hr with ⟨m, _, rfl⟩
    show (if |m.2.1 - m.2.2| < 1 / 100 then "✅ OK" else "⚠️ DIVERGENTE") = "✅ OK"
      ↔ |m.2.1 - m.2.2| < 1 / 100
    by_cases hc : |m.2.1 - m.2.2| < 1 / 100
    · rw [if_pos hc]; exact ⟨fun _ => hc, fun _ => rfl⟩
    · rw [if_neg hc]
      exact ⟨fun h => absurd h (by decide), fun h => absurd h hc⟩
  · refine ⟨_, DP.headD_mem default ?_, ?_, ?_⟩
    · intro hc
      have hlen : (DP.compare_by_categoria [⟨"A", 0, 0, 1 / 100⟩] []).length = 1 := rfl
      rw [hc] at hlen; exact absurd hlen (by simp)
    · show (1 : ℚ) / 100 - 0 = 1 / 100
      norm_num
    · show (if |(1 : ℚ) / 100 - 0| < 1 / 100 then "✅ OK" else "⚠️ DIVERGENTE") = "⚠️ DIVERGENTE"
      have hn : ¬(|(1 : ℚ) / 100 - 0| < 1 / 100) := by
        rw [sub_zero, abs_of_nonneg (by norm_num : (0 : ℚ) ≤ 1 / 100)]
        exact lt_irrefl _
      rw [if_neg hn]
  · refine ⟨_, DP.headD_mem default ?_, ?_, ?_⟩
    · intro hc
      have hlen : (DP.compare_by_categoria [⟨"A", 0, 0, 9999 / 1000000⟩] []).length = 1 := rfl
      rw [hc] at hlen; exact absurd hlen (by simp)
    · show (9999 : ℚ) / 1000000 - 0 = 9999 / 1000000
      norm_num
    · show (if |(9999 : ℚ) / 1000000 - 0| < 1 / 100 then "✅ OK" else "⚠️ DIVERGENTE") = "✅ OK"
      have hp : |(9999 : ℚ) / 1000000 - 0| < 1 / 100 := by
        rw [sub_zero, abs_of_nonneg (by norm_num : (0 : ℚ) ≤ 9999 / 1000000)]
        norm_num
      rw [if_pos hp]

/-- Witness for compare_by_categoria_status applied at a concrete
input row. -/
theorem compare_by_categoria_status_witness :
    ((DP.compare_by_categoria [⟨"A", 0, 0, 0⟩] []).headD default).status = "✅ OK"
    ↔ |((DP.compare_by_categoria [⟨"A", 0, 0, 0⟩] []).headD default).dif| < 1 / 100 := by
  refine compare_by_categoria_status.1 [⟨"A", 0, 0, 0⟩] [] _ (DP.headD_mem default ?_)
  intro hc
  have hlen : (DP.compare_by_categoria [⟨"A", 0, 0, 0⟩] []).length = 1 := rfl
  rw [hc] at hlen; exact absurd hlen (by simp)

/-- C10: every row of sum_pdf_by_categoria on a non-empty input has
non-negative Adicionais, non-positive Descontos, and Liquido equal to
their sum. -/
theorem sum_pdf_by_categoria_invariant :
    ∀ df : List DP.EventRow, df ≠ [] → ∀ r ∈ DP.sum_pdf_by_categoria df,
      0 ≤ r.adicionais ∧ r.descontos ≤ 0 ∧ r.liquido = r.adicionais + r.descontos := by
  intro df _ r hr
  unfold DP.sum_pdf_by_categoria at hr
  by_cases hemp : df.isEmpty
  · rw [if_pos hemp] at hr; exact absurd hr (List.not_mem_nil r)
  rw [if_neg hemp] at hr
  have hadd : ∀ (l : List DP.EventRow) (k : String) (v : ℚ),
      (k, v) ∈ DP.groupSum (fun r : DP.EventRow => r.categoria) (fun r => r.valor)
        (l.filter (fun r => decide (0 < r.valor))) → 0 ≤ v := by
    intro l k v hkv
    rcases DP.groupSum_val hkv with ⟨rfl, _⟩
    refine List.sum_nonneg ?_
    intro x hx
    rcases List.mem_map.mp hx with ⟨rr, hrr, rfl⟩
    rcases List.mem_filter.mp (List.mem_filter.mp hrr).1 with ⟨_, hv⟩
    exact le_of_lt (of_decide_eq_true hv)
  have hdesc : ∀ (l : List DP.EventRow) (k : String) (v : ℚ),
      (k, v) ∈ DP.groupSum (fun r : DP.EventRow => r.categoria) (fun r => r.valor)
        (l.filter (fun r => decide (r.valor < 0))) → v ≤ 0 := by
    intro l k v hkv
    rcases DP.groupSum_val hkv with ⟨rfl, _⟩
    refine DP.sum_nonpos_of_nonpos ?_
    intro x hx
    rcases List.mem_map.mp hx with ⟨rr, hrr, rfl⟩
    rcases List.mem_filter.mp (List.mem_filter.mp hrr).1 with ⟨_, hv⟩
    exact le_of_lt (of_decide_eq_true hv)
  rcases DP.mem_mergeOuter_elim hr with ⟨a, ha, hcase⟩ | ⟨d, hd, rfl⟩
  · rcases hcase with rfl | ⟨m, hm, _, rfl⟩
    · exact ⟨hadd _ a.1 a.2 ha, by simp, rfl⟩
    · refine ⟨hadd _ a.1 a.2 ha, ?_, rfl⟩
      simpa using hdesc _ m.1 m.2 hm
  · exact ⟨le_refl 0, hdesc _ d.1 d.2 hd, rfl⟩

/-- Witness for sum_pdf_by_categoria_invariant at a concrete one-row
input. -/
theorem sum_pdf_by_categoria_invariant_witness :
    (0 : ℚ) ≤ ((DP.sum_pdf_by_categoria [⟨"A", "001", "X", "+", 1⟩]).headD default).adicionais
    ∧ ((DP.sum_pdf_by_categoria [⟨"A", "001", "X", "+", 1⟩]).headD default).descontos ≤ 0
    ∧ ((DP.sum_pdf_by_categoria [⟨"A", "001", "X", "+", 1⟩]).headD default).liquido
      = ((DP.sum_pdf_by_categoria [⟨"A", "001", "X", "+", 1⟩]).headD default).adicionais
        + ((DP.sum_pdf_by_categoria [⟨"A", "001", "X", "+", 1⟩]).headD default).descontos := by
  refine sum_pdf_by_categoria_invariant [⟨"A", "001", "X", "+", 1⟩] (by simp) _
    (DP.headD_mem default ?_)
  intro hc
  have hlen : (DP.sum_pdf_by_categoria [⟨"A", "001", "X", "+", 1⟩]).length = 1 := by decide
  rw [hc] at hlen; exact absurd hlen (by simp)

/-- C6: parse_brl_decimal reads "." as thousands separator and "," as
decimal separator; the token "1.234,56" parses to exactly 1234.56. -/
theorem parse_brl_decimal_thousands :
    DP.parse_brl_decimal "1.234,56" = some (1234.56 : ℚ) := by
  have h1 : DP.parse_brl_decimal "1.234,56"
      = some ((1 : ℚ) * ((DP.digitsVal ['1', '2', '3', '4'] : ℚ)
          + (DP.digitsVal ['5', '6'] : ℚ) / (10 ^ (['5', '6'].length)))) := rfl
  rw [h1, show DP.digitsVal ['1', '2', '3', '4'] = 1234 from rfl,
    show DP.digitsVal ['5', '6'] = 56 from rfl]
  norm_num

/-- C9: whenever the normalized description does not contain "fgts",
classify_txt_by_description returns "Rescisão" (the constant truthy
string in the source's or-chain makes the Rescisão branch absorb all
non-tax inputs); consequently every output is "Impostos" or
"Rescisão", and both values are attained. -/
theorem classify_txt_range :
    (∀ s : String, DP.substrIn "fgts" (DP.normalize_text s) = false →
      DP.classify_txt_by_description s = "Rescisão")
    ∧ (∀ s : String, DP.classify_txt_by_description s = "Impostos"
        ∨ DP.classify_txt_by_description s = "Rescisão")
    ∧ DP.classify_txt_by_description "FGTS" = "Impostos"
    ∧ DP.classify_txt_by_description "FOLHA DE PAGAMENTO" = "Rescisão" := by
  have ht : DP.pyTruthy "rescisao contrato" = true := rfl
  refine ⟨?_, ?_, by decide, by decide⟩
  · intro s h
    unfold DP.classify_txt_by_description
    simp [h, ht]
  · intro s
    by_cases h : DP.substrIn "fgts" (DP.normalize_text s) = true
    · left; unfold DP.classify_txt_by_description; simp [h]
    · right
      rw [Bool.not_eq_true] at h
      unfold DP.classify_txt_by_description
      simp [h, ht]

/-- Witness for classify_txt_range at the concrete input "FÉRIAS". -/
theorem classify_txt_range_witness :
    DP.substrIn "fgts" (DP.normalize_text "FOLHA") = false
    ∧ DP.classify_txt_by_description "FOLHA" = "Rescisão" :=
  ⟨by decide, classify_txt_range.1 "FOLHA" (by decide)⟩

/-- C2: evaluation of the code at the failing input: for description
"FÉRIAS" the classifier returns "Rescisão", not the "Férias" category
promised by its own docstring (the always-truthy string literal in the
or-chain short-circuits the vacation branch). -/
theorem classify_ferias_is_rescisao :
    DP.classify_txt_by_description "FÉRIAS" = "Rescisão" := by decide

/-- C5: every reconciliation row stores exactly the difference of its
two stored source values, both in compare_by_categoria and in
compare_by_la; no rounding happens before storing it. -/
theorem reconciliation_difference_exact :
    (∀ (a b : List DP.CatTotal) (r : DP.CompCatRow), r ∈ DP.compare_by_categoria a b →
      r.dif = r.liquidoPDF - r.liquidoTXT)
    ∧ (∀ (dfPdf : List DP.EventRow) (dfTxt : List DP.TxtRow) (m : DP.Mapping) (r : DP.LaRow),
        r ∈ DP.compare_by_la dfPdf dfTxt m → r.dif = r.valorPDF - r.valorTXT) := by
  constructor
  · intro a b r hr
    simp only [DP.compare_by_categoria, List.mem_insertionSort] at hr
    rcases List.mem_map.mp hr with ⟨m, _, rfl⟩
    rfl
  · intro dfPdf dfTxt m r hr
    simp only [DP.compare_by_la, List.mem_insertionSort] at hr
    rcases DP.mem_mergeOuter_elim hr with ⟨p, _, hcase⟩ | ⟨t, _, rfl⟩
    · rcases hcase with rfl | ⟨u, _, _, rfl⟩ <;> rfl
    · rfl

/-- Witness for reconciliation_difference_exact at a concrete input
row. -/
theorem reconciliation_difference_exact_witness :
    ((DP.compare_by_categoria [⟨"B", 0, 0, 2⟩] []).headD default).dif
      = ((DP.compare_by_categoria [⟨"B", 0, 0, 2⟩] []).headD default).liquidoPDF
        - ((DP.compare_by_categoria [⟨"B", 0, 0, 2⟩] []).headD default).liquidoTXT := by
  refine reconciliation_difference_exact.1 [⟨"B", 0, 0, 2⟩] [] _ (DP.headD_mem default ?_)
  intro hc
  have hlen : (DP.compare_by_categoria [⟨"B", 0, 0, 2⟩] []).length = 1 := rfl
  rw [hc] at hlen; exact absurd hlen (by simp)

/-- C4: every (category, event code) pair of the summary extraction
appears in the compare_by_event report, and a report row whose mapped
ledger code matches no TXT posting keeps ValorTXT = 0 instead of being
dropped. -/
theorem compare_by_event_retains :
    ∀ (dfPdf : List DP.EventRow) (dfTxt : List DP.TxtRow) (m : DP.Mapping),
      (∀ r ∈ dfPdf, ∃ row ∈ DP.compare_by_event_report dfPdf dfTxt m,
        row.categoria = r.categoria ∧ row.eventoCod = r.eventoCod)
      ∧ (∀ row ∈ DP.compare_by_event_report dfPdf dfTxt m,
          (∀ t ∈ dfTxt, ∀ c : String, t.codigoLA = some c →
            row.codigoLA ≠ some (DP.pyStrip c)) →
          row.valorTXT = 0) := by
  intro dfPdf dfTxt m
  constructor
  · intro r hr
    have hne : ¬(dfPdf.isEmpty = true) := by
      rcases dfPdf with _ | ⟨a, as⟩
      · exact absurd hr (List.not_mem_nil r)
      · exact Bool.false_ne_true
    obtain ⟨v, hv⟩ := DP.groupSum_key_of_mem
      (fun rr : DP.EventRow => (rr.categoria, rr.eventoCod))
      (fun rr : DP.EventRow => rr.valor) hr
    obtain ⟨oe, hoe⟩ := DP.mem_mergeLeft_of_left
      (DP.mapping_event_to_la m)
      (fun p e => decide (e.1 = p.1.1 ∧ e.2.1 = p.1.2))
      (fun p oe =>
        { categoria := p.1.1, eventoCod := p.1.2,
          eventoNome := DP.nomeOf dfPdf p.1.1 p.1.2,
          valorPDF := p.2, codigoLA := oe.map (fun e => e.2.2) : DP.PdfMRow })
      hv
    obtain ⟨ot, hot⟩ := DP.mem_mergeLeft_of_left
      (DP.sum_txt_by_event dfTxt (DP.mapping_event_to_la m)
        (DP.mapping_la_to_categoria m))
      (fun p t => decide (t.categoria = p.categoria ∧ t.eventoCod = p.eventoCod
        ∧ some t.codigoLA = p.codigoLA))
      (fun p ot =>
        let vt := (ot.map (fun t : DP.SumTxtRow => t.valorTXT)).getD 0
        { categoria := p.categoria, eventoCod := p.eventoCod, eventoNome := p.eventoNome,
          codigoLA := p.codigoLA, valorPDF := p.valorPDF, valorTXT := vt,
          dif := p.valorPDF - vt : DP.ReportRow })
      hoe
    simp only [DP.compare_by_event_report]
    rw [if_neg hne]
    simp only [List.mem_insertionSort]
    exact ⟨_, hot, rfl, rfl⟩
  · intro row hrow H
    by_cases hemp : dfPdf.isEmpty = true
    · simp only [DP.compare_by_event_report] at hrow
      rw [if_pos hemp] at hrow
      exact absurd hrow (List.not_mem_nil row)
    · simp only [DP.compare_by_event_report] at hrow
      rw [if_neg hemp, List.mem_insertionSort] at hrow
      rcases DP.mem_mergeLeft_elim hrow with ⟨p, hp, hcase⟩
      rcases hcase with rfl | ⟨t, ht, hcond, rfl⟩
      · rfl
      · have hcond2 := of_decide_eq_true hcond
        by_cases hemp2 : (dfTxt.isEmpty || (DP.mapping_event_to_la m).isEmpty) = true
        · simp only [DP.sum_txt_by_event] at ht
          rw [if_pos hemp2] at ht
          exact absurd ht (List.not_mem_nil t)
        · simp only [DP.sum_txt_by_event] at ht
          rw [if_neg hemp2] at ht
          rcases DP.mem_mergeLeft_elim ht with ⟨e, he, hcase2⟩
          rcases hcase2 with rfl | ⟨u, hu, hcond3, rfl⟩
          · rfl
          · exfalso
            have hd3 := of_decide_eq_true hcond3
            rcases List.mem_map.mp hu with ⟨cv, hcv, rfl⟩
            rcases cv with ⟨c0, v0⟩
            rcases DP.groupSum_val hcv with ⟨_, hmem⟩
            rcases List.mem_map.mp hmem with ⟨pr, hpr, hfst⟩
            rcases List.mem_filterMap.mp hpr with ⟨tr, htr, hmap⟩
            cases hcod : tr.codigoLA with
            | none => rw [hcod] at hmap; exact Option.noConfusion hmap
            | some c1 =>
              rw [hcod] at hmap
              have hpr2 : pr = (c1, tr.valor) := by
                simpa using hmap.symm
              have hc0c1 : c0 = c1 := by
                rw [hpr2] at hfst
                exact hfst.symm
              apply H tr htr c1 hcod
              show p.codigoLA = some (DP.pyStrip c1)
              rw [← hcond2.2.2]
              show some e.2.2 = some (DP.pyStrip c1)
              rw [← hd3.1]
              show some (DP.pyStrip c0) = some (DP.pyStrip c1)
              rw [hc0c1]

/-- Witness for compare_by_event_retains at a concrete one-event
summary. -/
theorem compare_by_event_retains_witness :
    ∃ row ∈ DP.compare_by_event_report [⟨"A", "001", "X", "+", 1⟩] [] [],
      row.categoria = (⟨"A", "001", "X", "+", 1⟩ : DP.EventRow).categoria
      ∧ row.eventoCod = (⟨"A", "001", "X", "+", 1⟩ : DP.EventRow).eventoCod :=
  (compare_by_event_retains [⟨"A", "001", "X", "+", 1⟩] [] []).1
    ⟨"A", "001", "X", "+", 1⟩ (List.mem_singleton_self _)

set_option maxRecDepth 10000 in
/-- C3 counterexample: on a concrete page whose data line carries a
"-" sign, parse_pdf_events emits exactly one row, its sign field is
"-", and its stored amount is negative — the stored amount is not kept
non-negative with the sign only in the separate field. -/
theorem parse_pdf_events_negative_stored :
    (DP.parse_pdf_events [DP.samplePage]).length = 1
    ∧ ((DP.parse_pdf_events [DP.samplePage]).headD default).sinal = "-"
    ∧ ((DP.parse_pdf_events [DP.samplePage]).headD default).valor < 0 := by decide

/-- The sign relation holds for every row built by dataRow. -/
theorem rowSignOk_dataRow (cat cd ec sg : String) (v : ℚ) :
    DP.rowSignOk (DP.dataRow cat cd ec sg v) := by
  constructor
  · intro h
    have h2 : sg = "-" := h
    show (if sg = "-" then -|v| else |v|) ≤ 0
    rw [if_pos h2]
    exact neg_nonpos.mpr (abs_nonneg v)
  · intro h
    have h2 : ¬(sg = "-") := h
    show (0 : ℚ) ≤ (if sg = "-" then -|v| else |v|)
    rw [if_neg h2]
    exact abs_nonneg v

set_option maxHeartbeats 2000000 in
/-- C3 amended: every row of parse_pdf_events stores the value with
the detected sign already applied: non-positive when the sign field is
"-", non-negative otherwise; the aggregation consumes this signed
value directly. -/
theorem parse_pdf_events_sign_applied :
    ∀ (pages : List (List DP.Word)) (r : DP.EventRow),
      r ∈ DP.parse_pdf_events pages → DP.rowSignOk r := by
  have hstep : ∀ (s : DP.PState) (line : List DP.Word),
      (∀ r ∈ s.rows, DP.rowSignOk r) → ∀ r ∈ (DP.stepLine s line).rows, DP.rowSignOk r := by
    intro s line hs r hr
    unfold DP.stepLine at hr
    dsimp only [] at hr
    split at hr
    · exact hs r hr
    · split at hr
      · split at hr
        · exact hs r hr
        · exact hs r hr
      · split at hr
        · exact hs r hr
        · split at hr
          · exact hs r hr
          · split at hr
            · exact hs r hr
            · split at hr
              · exact hs r hr
              · split at hr
                · exact hs r hr
                · split at hr
                  · exact hs r hr
                  · rcases List.mem_append.mp hr with h | h
                    · exact hs r h
                    · rcases List.mem_singleton.mp h with rfl
                      exact rowSignOk_dataRow _ _ _ _ _
  have hfold : ∀ (lines : List (List DP.Word)) (s : DP.PState),
      (∀ r ∈ s.rows, DP.rowSignOk r) →
      ∀ r ∈ (lines.foldl DP.stepLine s).rows, DP.rowSignOk r := by
    intro lines
    induction lines with
    | nil => intro s hs; exact hs
    | cons l ls ih =>
      intro s hs
      rw [List.foldl_cons]
      exact ih _ (hstep s l hs)
  have hpages : ∀ (pages : List (List DP.Word)) (s : DP.PState),
      (∀ r ∈ s.rows, DP.rowSignOk r) →
      ∀ r ∈ (pages.foldl
        (fun st page => (DP.group_words_by_line page).foldl DP.stepLine st) s).rows,
        DP.rowSignOk r := by
    intro pages
    induction pages with
    | nil => intro s hs; exact hs
    | cons p ps ih =>
      intro s hs
      rw [List.foldl_cons]
      exact ih _ (hfold _ s hs)
  intro pages r hr
  exact hpages pages DP.initPState (fun r hr2 => absurd hr2 (List.not_mem_nil r)) r hr

set_option maxRecDepth 10000 in
/-- Witness for parse_pdf_events_sign_applied at the concrete sample
page. -/
theorem parse_pdf_events_sign_applied_witness :
    DP.rowSignOk ((DP.parse_pdf_events [DP.samplePage]).headD default) :=
  parse_pdf_events_sign_applied [DP.samplePage] _ (by decide)

/-- C8: a data line inside a block whose amount token fails to parse
leaves the state untouched (the line is skipped, nothing is raised —
the embedded step is total) and extraction continues with the
remaining lines from the same state. -/
theorem parse_pdf_skips_bad_amount :
    ∀ (s : DP.PState) (line : List DP.Word) (c : List (String × ℚ)),
      DP.isCategoriaLine line = false →
      DP.find_header_centers line = none →
      s.centers = some c →
      s.inBlock = true →
      DP.isFooterLine (DP.normalize_text (DP.lineText line)) = false →
      ¬(DP.pyStrip (DP.assignColText line c "valor") = "") →
      ¬(DP.digitsOf (DP.sinalOf (DP.pyStrip (DP.assignColText line c "codigo"))).2 = "") →
      DP.parse_brl_decimal (DP.valorToken (DP.pyStrip (DP.assignColText line c "valor")))
        = none →
      DP.stepLine s line = s
      ∧ ∀ rest : List (List DP.Word),
          (line :: rest).foldl DP.stepLine s = rest.foldl DP.stepLine s := by
  intro s line c h1 h2 h3 h4 h5 h6 h7 h8
  have hstep : DP.stepLine s line = s := by
    simp [DP.stepLine, h1, h2, h3, h4, h5, h6, h7, h8]
  exact ⟨hstep, fun rest => by rw [List.foldl_cons, hstep]⟩

set_option maxRecDepth 10000 in
/-- Witness for parse_pdf_skips_bad_amount at a concrete in-block
state and bad line. -/
theorem parse_pdf_skips_bad_amount_witness :
    DP.stepLine DP.sampleState DP.badAmountLine = DP.sampleState :=
  (parse_pdf_skips_bad_amount DP.sampleState DP.badAmountLine DP.sampleCenters
    (by decide) (by decide) (by decide) (by decide) (by decide) (by decide) (by decide)
    (by decide)).1

/-- C7: parse_txt_lancamentos contributes nothing for a record whose
amount field is missing or non-numeric, or whose ledger code is empty,
not all digits, or shorter than 4 characters: deleting such a record
from the input leaves the output unchanged. -/
theorem parse_txt_lancamentos_drops :
    ∀ (pre post : List (List String)) (rec : List String),
      (DP.parse_brl_decimal (DP.lancValorStr rec) = none
        ∨ DP.lancCodigo rec = ""
        ∨ ¬((DP.lancCodigo rec).data.all Char.isDigit = true)
        ∨ (DP.lancCodigo rec).length < 4) →
      DP.parse_txt_lancamentos (pre ++ rec :: post) = DP.parse_txt_lancamentos (pre ++ post) := by
  intro pre post rec h
  have hnone : DP.rowOfLancamento rec = none := by
    unfold DP.rowOfLancamento
    by_cases h0 : rec.isEmpty ∨ rec.length < 4
    · rw [if_pos h0]
    rw [if_neg h0]
    by_cases h1 : DP.lancCodigo rec = "" ∨ ¬((DP.lancCodigo rec).data.all Char.isDigit = true)
    · rw [if_pos h1]
    rw [if_neg h1]
    by_cases h2 : (DP.lancCodigo rec).length < 4
    · rw [if_pos h2]
    rw [if_neg h2]
    have hpar : DP.parse_brl_decimal (DP.lancValorStr rec) = none := by
      rcases h with h | h | h | h
      · exact h
      · exact absurd (Or.inl h) h1
      · exact absurd (Or.inr h) h1
      · exact absurd h h2
    have hval : DP.parse_brl_decimal_resumos (DP.lancValorStr rec) = 0 := by
      unfold DP.parse_brl_decimal_resumos
      rw [hpar]
      rfl
    simp [hval]
  unfold DP.parse_txt_lancamentos
  rw [List.filterMap_append, List.filterMap_append]
  simp [List.filterMap_cons, hnone]

/-- Witness for parse_txt_lancamentos_drops: deleting a record with a
non-numeric amount does not change the extracted postings. -/
theorem parse_txt_lancamentos_drops_witness :
    DP.parse_txt_lancamentos
        ([] ++ ["a", "30057", "x", "ABC", "d"]
          :: [["a", "1234", "x", "10,00", "y", "z", "w", "DESC"]])
      = DP.parse_txt_lancamentos ([] ++ [["a", "1234", "x", "10,00", "y", "z", "w", "DESC"]]) :=
  parse_txt_lancamentos_drops [] [["a", "1234", "x", "10,00", "y", "z", "w", "DESC"]]
    ["a", "30057", "x", "ABC", "d"] (Or.inl (by decide))
